import Mathlib

/-!
Shallow embedding of the texture-atlas allocator of
`src/openrct2-ui/drawing/engines/opengl/TextureCache.h` (OpenRCT2), together
with theorems checking the specification's claims about it.

Modelling conventions:
* The machine integers of the source (`sint32`, `GLuint`, `uint32`, `uint64`,
  `size_t`) are modelled as `ℕ`; every quantity manipulated by the atlas code
  (indices, slot ids, pixel sizes, grid coordinates) is nonnegative, and C++
  integer division on nonnegative operands agrees with `Nat` division.  Where
  C++ arithmetic wraps (the `size_t`/`uint32` hash computation) the reduction
  `% 2 ^ w` is written explicitly.
* `float` coordinate arithmetic (GLSL `vec4`) is idealised as exact rational
  arithmetic: the divisions performed by `NormalizeCoordinates` divide small
  integers by the atlas dimensions.
* `std::vector<GLuint> _freeSlots` is modelled as a `List ℕ` holding the
  vector's elements in reverse order, so that the vector's back — the element
  read by `back()`/`pop_back()` and written by `push_back` — is the head of
  the list.
* A failing `assert` is modelled by returning `none`.
-/

namespace TextureCacheSpec

/-- Source line 57: maximum width and height of each atlas. -/
def TEXTURE_CACHE_MAX_ATLAS_SIZE : ℕ := 2048

/-- Source line 61: pixel dimension of the smallest supported slot. -/
def TEXTURE_CACHE_SMALLEST_SLOT : ℕ := 32

/-- GLSL `ivec4` (four signed integers); every value stored by the atlas code
is nonnegative, so the components are modelled as `ℕ`. -/
structure ivec4 where
  x : ℕ
  y : ℕ
  z : ℕ
  w : ℕ
deriving DecidableEq, Repr

/-- GLSL `vec4` (four floats), idealised as exact rationals. -/
structure vec4 where
  x : ℚ
  y : ℚ
  z : ℚ
  w : ℚ
deriving DecidableEq, Repr

/-- Source lines 29-33: `struct GlyphId { uint32 Image; uint64 Palette; }`.
The fields hold the numeric values of the two machine integers. -/
structure GlyphId where
  Image : ℕ
  Palette : ℕ
deriving DecidableEq, Repr

/-- Representability of a `GlyphId` by the declared C types: `Image` is a
`uint32` (32 bits) and `Palette` is a `uint64` (64 bits). -/
def GlyphId.WF (g : GlyphId) : Prop :=
  g.Image < 2 ^ 32 ∧ g.Palette < 2 ^ 64

instance (g : GlyphId) : Decidable g.WF := by
  unfold GlyphId.WF
  infer_instance

/-- Source lines 34-43, `GlyphId::Hash`.  `k.Image * 7` is computed in
`uint32` (wraps mod `2 ^ 32`); the two subsequent products are computed in
`uint64` and accumulated into a `size_t` (64-bit), wrapping mod `2 ^ 64`.
`& 0xFFFFFFFF` is `% 2 ^ 32` and `>> 32` is `/ 2 ^ 32`. -/
def GlyphId.Hash (k : GlyphId) : ℕ :=
  let h1 := k.Image * 7 % 2 ^ 32
  let h2 := (h1 + k.Palette % 2 ^ 32 * 13) % 2 ^ 64
  (h2 + k.Palette / 2 ^ 32 * 23) % 2 ^ 64

/-- Source lines 45-52, `GlyphId::Equal`: componentwise comparison. -/
def GlyphId.Equal (lhs rhs : GlyphId) : Bool :=
  lhs.Image == rhs.Image && lhs.Palette == rhs.Palette

/-- Source lines 64-71, `struct CachedTextureInfo`. -/
structure CachedTextureInfo where
  index : ℕ
  slot : ℕ
  bounds : ivec4
  normalizedBounds : vec4
  computedBounds : vec4
deriving DecidableEq, Repr

/-- Source lines 76-93: the `Atlas` state.  `freeSlots` holds the elements of
`std::vector<GLuint> _freeSlots` in reverse order (head = vector back). -/
structure Atlas where
  index : ℕ
  imageSize : ℕ
  atlasWidth : ℕ
  atlasHeight : ℕ
  freeSlots : List ℕ
  cols : ℕ
  rows : ℕ
deriving DecidableEq, Repr

/-- Source lines 89-93: the constructor `Atlas(index, imageSize)`; the other
members keep their in-class initialisers (`0` / empty). -/
def Atlas.new (index imageSize : ℕ) : Atlas :=
  { index := index
    imageSize := imageSize
    atlasWidth := 0
    atlasHeight := 0
    freeSlots := []
    cols := 0
    rows := 0 }

/-- Source lines 95-108, `Atlas::Initialise`: store the dimensions, derive the
grid, and fill `_freeSlots` with `0, 1, ..., cols*rows - 1` (so the vector's
back, our list head, is `cols*rows - 1`). -/
def Atlas.Initialise (a : Atlas) (atlasWidth atlasHeight : ℕ) : Atlas :=
  let cols := atlasWidth / a.imageSize
  let rows := atlasHeight / a.imageSize
  { a with
    atlasWidth := atlasWidth
    atlasHeight := atlasHeight
    cols := cols
    rows := rows
    freeSlots := (List.range (cols * rows)).reverse }

/-- Source lines 162-174, `Atlas::GetSlotCoordinates`. -/
def Atlas.GetSlotCoordinates (a : Atlas) (slot actualWidth actualHeight : ℕ) : ivec4 :=
  let row := slot / a.cols
  let col := slot % a.cols
  { x := a.imageSize * col
    y := a.imageSize * row
    z := a.imageSize * col + actualWidth
    w := a.imageSize * row + actualHeight }

/-- Source lines 176-185, `Atlas::NormalizeCoordinates`: divide componentwise
by the atlas pixel dimensions. -/
def Atlas.NormalizeCoordinates (a : Atlas) (coords : ivec4) : vec4 :=
  { x := (coords.x : ℚ) / (a.atlasWidth : ℚ)
    y := (coords.y : ℚ) / (a.atlasHeight : ℚ)
    z := (coords.z : ℚ) / (a.atlasWidth : ℚ)
    w := (coords.w : ℚ) / (a.atlasHeight : ℚ) }

/-- Source lines 110-126, `Atlas::Allocate`: assert a free slot exists (`none`
models the assertion firing), pop the vector's back, build the record.  The
brace initialiser at lines 119-125 supplies only four of the five fields of
`CachedTextureInfo`; C++ aggregate initialisation value-initialises the
remaining field `computedBounds` to zero. -/
def Atlas.Allocate (a : Atlas) (actualWidth actualHeight : ℕ) :
    Option (CachedTextureInfo × Atlas) :=
  match a.freeSlots with
  | [] => none
  | slot :: rest =>
    let bounds := a.GetSlotCoordinates slot actualWidth actualHeight
    some
      ({ index := a.index
         slot := slot
         bounds := bounds
         normalizedBounds := a.NormalizeCoordinates bounds
         computedBounds := { x := 0, y := 0, z := 0, w := 0 } },
       { a with freeSlots := rest })

/-- Source lines 128-133, `Atlas::Free`: assert `_index == info.index` (`none`
models the assertion firing), then push the slot id onto the vector. -/
def Atlas.Free (a : Atlas) (info : CachedTextureInfo) : Option Atlas :=
  if a.index = info.index then
    some { a with freeSlots := info.slot :: a.freeSlots }
  else
    none

/-- Source lines 150-159, `Atlas::CalculateImageSizeOrder`: clamp
`max(width, height)` below by `TEXTURE_CACHE_SMALLEST_SLOT`, then take
`ceil(log2)`.  The source computes `(sint32) ceil(log2f((float) actualSize))`;
on the supported range (`actualSize ≤ 2048`) the float computation coincides
with the exact `Nat.clog 2`. -/
def Atlas.CalculateImageSizeOrder (actualWidth actualHeight : ℕ) : ℕ :=
  let actualSize := max actualWidth actualHeight
  let actualSize :=
    if actualSize < TEXTURE_CACHE_SMALLEST_SLOT then TEXTURE_CACHE_SMALLEST_SLOT
    else actualSize
  Nat.clog 2 actualSize

/-- Source lines 137-143, `Atlas::IsImageSuitable`: exact comparison of the
image's order with the atlas's own order `(sint32) log2(_imageSize)` (the cast
truncates, i.e. floor, which is `Nat.log 2`; for the power-of-two image sizes
atlases are built with, floor and exact log2 agree). -/
def Atlas.IsImageSuitable (a : Atlas) (actualWidth actualHeight : ℕ) : Bool :=
  Atlas.CalculateImageSizeOrder actualWidth actualHeight == Nat.log 2 a.imageSize

/-- Source lines 145-148, `Atlas::GetFreeSlots`: the size of `_freeSlots`. -/
def Atlas.GetFreeSlots (a : Atlas) : ℕ :=
  a.freeSlots.length

/-!
Helper lemmas (shared by several claim theorems).
-/

/-- Evaluation helper for `Nat.clog 2` on concrete values. -/
theorem clog2_eq_succ_of (k n : ℕ) (h1 : 2 ^ k < n) (h2 : n ≤ 2 ^ (k + 1)) :
    Nat.clog 2 n = k + 1 :=
  le_antisymm ((Nat.le_pow_iff_clog_le one_lt_two).mp h2)
    ((Nat.pow_lt_iff_lt_clog one_lt_two).mp h1)

/-- Unfolding `Atlas.Allocate` when the free-slot list is known to be a cons:
the popped slot is the vector's back and only `freeSlots` changes. -/
theorem allocate_of_freeSlots_cons {a : Atlas} {s : ℕ} {rest : List ℕ} (iw ihh : ℕ)
    (hfs : a.freeSlots = s :: rest) :
    a.Allocate iw ihh =
      some ({ index := a.index, slot := s,
              bounds := a.GetSlotCoordinates s iw ihh,
              normalizedBounds := a.NormalizeCoordinates (a.GetSlotCoordinates s iw ihh),
              computedBounds := ⟨0, 0, 0, 0⟩ },
            { a with freeSlots := rest }) := by
  obtain ⟨i, sz, w1, h1, fs, c, r⟩ := a
  simp only at hfs
  subst hfs
  rfl

/-- Inversion for a successful `Atlas.Allocate`. -/
theorem allocate_some_elim {a a' : Atlas} {iw ihh : ℕ} {info : CachedTextureInfo}
    (h : a.Allocate iw ihh = some (info, a')) :
    a.freeSlots = info.slot :: a'.freeSlots ∧ info.index = a.index ∧
    a' = { a with freeSlots := a'.freeSlots } := by
  cases hfs : a.freeSlots with
  | nil =>
    obtain ⟨i, sz, w1, h1, fs, c, r⟩ := a
    simp only at hfs
    subst hfs
    exact absurd h (by simp [Atlas.Allocate])
  | cons s rest =>
    rw [allocate_of_freeSlots_cons iw ihh hfs] at h
    obtain ⟨hinfo, ha'⟩ := Prod.mk.injEq .. ▸ Option.some.injEq .. ▸ h
    subst hinfo
    subst ha'
    exact ⟨rfl, rfl, rfl⟩

/-- Inversion for a successful `Atlas.Free`. -/
theorem free_some_elim {a a' : Atlas} {info : CachedTextureInfo}
    (h : a.Free info = some a') :
    a.index = info.index ∧ a' = { a with freeSlots := info.slot :: a.freeSlots } := by
  by_cases hidx : a.index = info.index
  · simp only [Atlas.Free, if_pos hidx] at h
    injection h with h
    exact ⟨hidx, h.symm⟩
  · simp only [Atlas.Free, if_neg hidx] at h
    cases h

/-- Traces of atlas use for the allocation-freshness claim: `Reaches a L`
holds when atlas state `a`, together with the list `L` of currently live slot
ids, is reachable from a freshly initialised atlas by `Allocate` calls made
only when a free slot exists (the call returns `some`) and `Free` calls that
free only a currently live allocation of this atlas. -/
inductive Reaches : Atlas → List ℕ → Prop
  | init (idx size aw ah : ℕ) : Reaches ((Atlas.new idx size).Initialise aw ah) []
  | alloc {a : Atlas} {L : List ℕ} {iw ihh : ℕ} {info : CachedTextureInfo} {a' : Atlas} :
      Reaches a L → a.Allocate iw ihh = some (info, a') → Reaches a' (info.slot :: L)
  | free {a : Atlas} {L : List ℕ} {info : CachedTextureInfo} {a' : Atlas} :
      Reaches a L → info.slot ∈ L → a.Free info = some a' → Reaches a' (L.erase info.slot)

/-- Allocator invariant: along every trace the free-slot list has no
duplicates, the live slots are pairwise distinct, and no free slot is live. -/
theorem reaches_invariant {a : Atlas} {L : List ℕ} (h : Reaches a L) :
    a.freeSlots.Nodup ∧ L.Nodup ∧ ∀ s ∈ a.freeSlots, s ∉ L := by
  induction h with
  | init idx size aw ah =>
    refine ⟨?_, List.nodup_nil, by simp⟩
    simp [Atlas.Initialise, Atlas.new, List.nodup_reverse, List.nodup_range]
  | @alloc a L iw ihh info a' hre halloc ih =>
    obtain ⟨hnd, hLnd, hdisj⟩ := ih
    obtain ⟨hfs, hidx, ha'⟩ := allocate_some_elim halloc
    rw [hfs] at hnd hdisj
    refine ⟨(List.nodup_cons.mp hnd).2, ?_, ?_⟩
    · exact List.nodup_cons.mpr ⟨hdisj _ (List.mem_cons_self _ _), hLnd⟩
    · intro s hs
      simp only [List.mem_cons, not_or]
      refine ⟨fun he => ?_, hdisj s (List.mem_cons_of_mem _ hs)⟩
      subst he
      exact (List.nodup_cons.mp hnd).1 hs
  | @free a L info a' hre hmem hfree ih =>
    obtain ⟨hnd, hLnd, hdisj⟩ := ih
    obtain ⟨hidx, ha'⟩ := free_some_elim hfree
    subst ha'
    refine ⟨?_, List.Nodup.erase _ hLnd, ?_⟩
    · exact List.nodup_cons.mpr ⟨fun hcon => hdisj _ hcon hmem, hnd⟩
    · intro s hs
      rcases List.mem_cons.mp hs with he | hsm
      · subst he
        exact hLnd.not_mem_erase
      · exact fun hin => hdisj s hsm (List.mem_of_mem_erase hin)

/-!
Claim theorems.
-/

/-- C1 (amended): on an atlas built by `Initialise` with at least one free
slot, `Allocate(iw, ihh)` pops the back of the free-slot vector and returns a
record whose `index` is the atlas index, whose `bounds` are
`(size*col, size*row, size*col+iw, size*row+ihh)` for `row = slot / cols`,
`col = slot % cols` with `cols = aw / size`, and whose `normalizedBounds` are
those bounds divided componentwise by the atlas pixel dimensions.  The
aggregate initialiser supplies only these four fields; `computedBounds` is
not populated by `Allocate` but left value-initialised to zero. -/
theorem allocate_returns_popped_slot_with_bounds (idx size aw ah iw ihh : ℕ)
    (hne : ((Atlas.new idx size).Initialise aw ah).freeSlots ≠ []) :
    ∃ info a',
      ((Atlas.new idx size).Initialise aw ah).Allocate iw ihh = some (info, a') ∧
      info.index = idx ∧
      ((Atlas.new idx size).Initialise aw ah).freeSlots = info.slot :: a'.freeSlots ∧
      info.bounds =
        ⟨size * (info.slot % (aw / size)), size * (info.slot / (aw / size)),
         size * (info.slot % (aw / size)) + iw, size * (info.slot / (aw / size)) + ihh⟩ ∧
      info.normalizedBounds =
        ⟨(info.bounds.x : ℚ) / ((aw : ℕ) : ℚ), (info.bounds.y : ℚ) / ((ah : ℕ) : ℚ),
         (info.bounds.z : ℚ) / ((aw : ℕ) : ℚ), (info.bounds.w : ℚ) / ((ah : ℕ) : ℚ)⟩ ∧
      info.computedBounds = ⟨0, 0, 0, 0⟩ := by
  rcases hfs : ((Atlas.new idx size).Initialise aw ah).freeSlots with _ | ⟨s, rest⟩
  · exact absurd hfs hne
  · exact ⟨_, _, allocate_of_freeSlots_cons iw ihh hfs, rfl, rfl, rfl, rfl, rfl⟩

/-- C1 witness: the amended theorem applied to a 64x64 atlas of 32-pixel
slots and a 10x10 image. -/
theorem allocate_returns_popped_slot_with_bounds_witness :
    (((Atlas.new 7 32).Initialise 64 64).freeSlots ≠ []) ∧
    (∃ info a',
      ((Atlas.new 7 32).Initialise 64 64).Allocate 10 10 = some (info, a') ∧
      info.index = 7 ∧
      ((Atlas.new 7 32).Initialise 64 64).freeSlots = info.slot :: a'.freeSlots ∧
      info.bounds =
        ⟨32 * (info.slot % (64 / 32)), 32 * (info.slot / (64 / 32)),
         32 * (info.slot % (64 / 32)) + 10, 32 * (info.slot / (64 / 32)) + 10⟩ ∧
      info.normalizedBounds =
        ⟨(info.bounds.x : ℚ) / ((64 : ℕ) : ℚ), (info.bounds.y : ℚ) / ((64 : ℕ) : ℚ),
         (info.bounds.z : ℚ) / ((64 : ℕ) : ℚ), (info.bounds.w : ℚ) / ((64 : ℕ) : ℚ)⟩ ∧
      info.computedBounds = ⟨0, 0, 0, 0⟩) :=
  ⟨by decide, allocate_returns_popped_slot_with_bounds 7 32 64 64 10 10 (by decide)⟩

/-- C1 counterexample: `Allocate` does not populate every field of the
returned record.  The brace initialiser at source lines 119-125 supplies only
`index`, `slot`, `bounds` and `normalizedBounds`; on a concrete atlas the
returned `computedBounds` is the value-initialised zero vector and differs
from the nonzero coordinate data of the slot (its normalized right edge). -/
theorem allocate_leaves_computedBounds_unset :
    ∃ info a',
      ((Atlas.new 7 32).Initialise 64 64).Allocate 10 10 = some (info, a') ∧
      info.computedBounds = ⟨0, 0, 0, 0⟩ ∧
      info.normalizedBounds.z ≠ info.computedBounds.z := by
  refine ⟨_, _, rfl, rfl, ?_⟩
  simp [Atlas.NormalizeCoordinates, Atlas.GetSlotCoordinates, Atlas.Initialise, Atlas.new]

/-- C2: for `1 ≤ max(width, height) ≤ 2048` the pure static
`CalculateImageSizeOrder` returns `ceil(log2(max(width, height, 32)))`,
characterised adjointly by `order ≤ e ↔ max(width, height, 32) ≤ 2 ^ e`. -/
theorem calculateImageSizeOrder_eq_ceil_log2 (w h : ℕ) (h1 : 1 ≤ max w h)
    (h2 : max w h ≤ 2048) :
    Atlas.CalculateImageSizeOrder w h = Nat.clog 2 (max (max w h) 32) ∧
    ∀ e : ℕ, Atlas.CalculateImageSizeOrder w h ≤ e ↔ max (max w h) 32 ≤ 2 ^ e := by
  have hmain : Atlas.CalculateImageSizeOrder w h = Nat.clog 2 (max (max w h) 32) := by
    simp only [Atlas.CalculateImageSizeOrder, TEXTURE_CACHE_SMALLEST_SLOT]
    rcases le_or_lt 32 (max w h) with hle | hlt
    · rw [if_neg (not_lt.mpr hle), max_eq_left hle]
    · rw [if_pos hlt, max_eq_right hlt.le]
  refine ⟨hmain, fun e => ?_⟩
  rw [hmain]
  exact (Nat.le_pow_iff_clog_le one_lt_two).symm

/-- C2 witness: the theorem applied to a 100x3 image. -/
theorem calculateImageSizeOrder_eq_ceil_log2_witness :
    (1 ≤ max 100 3 ∧ max 100 3 ≤ 2048) ∧
    (Atlas.CalculateImageSizeOrder 100 3 = Nat.clog 2 (max (max 100 3) 32) ∧
     ∀ e : ℕ, Atlas.CalculateImageSizeOrder 100 3 ≤ e ↔ max (max 100 3) 32 ≤ 2 ^ e) :=
  ⟨⟨by norm_num, by norm_num⟩,
   calculateImageSizeOrder_eq_ceil_log2 100 3 (by norm_num) (by norm_num)⟩

/-- C3: along every trace of `Allocate`/`Free` from an initialised atlas, the
live slot ids are pairwise distinct, and any slot returned by a further
`Allocate` is not currently live — it comes only from never-yet-allocated or
previously freed slots. -/
theorem reachable_allocations_fresh_and_distinct (a : Atlas) (L : List ℕ)
    (hre : Reaches a L) :
    L.Nodup ∧
    ∀ iw ihh info a', a.Allocate iw ihh = some (info, a') → info.slot ∉ L := by
  obtain ⟨-, hLnd, hdisj⟩ := reaches_invariant hre
  refine ⟨hLnd, fun iw ihh info a' halloc => ?_⟩
  obtain ⟨hfs, -, -⟩ := allocate_some_elim halloc
  exact hdisj info.slot (by rw [hfs]; exact List.mem_cons_self _ _)

/-- C3 witness: the theorem applied to the freshly initialised 64x64 atlas. -/
theorem reachable_allocations_fresh_and_distinct_witness :
    ([] : List ℕ).Nodup ∧
    ∀ iw ihh info a',
      ((Atlas.new 0 32).Initialise 64 64).Allocate iw ihh = some (info, a') →
      info.slot ∉ ([] : List ℕ) :=
  reachable_allocations_fresh_and_distinct _ _ (Reaches.init 0 32 64 64)

/-- C4: `IsImageSuitable` holds exactly when the image's size-class order
equals the atlas's own order (the truncated `log2` of its `imageSize`); a
10x10 image and a 32x32 image both have order 5 and are suitable for exactly
the same atlases. -/
theorem isImageSuitable_exact_order_match (a : Atlas) (iw ihh : ℕ) :
    (a.IsImageSuitable iw ihh = true ↔
      Atlas.CalculateImageSizeOrder iw ihh = Nat.log 2 a.imageSize) ∧
    Atlas.CalculateImageSizeOrder 10 10 = 5 ∧
    Atlas.CalculateImageSizeOrder 32 32 = 5 ∧
    a.IsImageSuitable 10 10 = a.IsImageSuitable 32 32 := by
  refine ⟨?_, ?_, ?_, rfl⟩
  · simp [Atlas.IsImageSuitable]
  · exact clog2_eq_succ_of 4 32 (by norm_num) (by norm_num)
  · exact clog2_eq_succ_of 4 32 (by norm_num) (by norm_num)

/-- C5 counterexample: the `Palette` component of the glyph-map key is a
`uint64`, not a 96-bit value: the 96-bit value `2 ^ 95` is not representable
in the field. -/
theorem glyphId_palette_not_96_bits :
    ¬ GlyphId.WF { Image := 0, Palette := 2 ^ 95 } ∧ (2 ^ 95 : ℕ) < 2 ^ 96 :=
  ⟨fun h => absurd h.2 (by norm_num), by norm_num⟩

/-- C5 (amended): the glyph-map key is the pair (image identifier, palette)
where the palette component is a 64-bit value: `GlyphId` is determined by its
two components, and the representable palettes are exactly the values below
`2 ^ 64`. -/
theorem glyphId_key_is_image_palette_pair (g1 g2 : GlyphId) :
    (g1 = g2 ↔ g1.Image = g2.Image ∧ g1.Palette = g2.Palette) ∧
    (∀ g : GlyphId, g.WF → g.Palette < 2 ^ 64) ∧
    (∀ i p : ℕ, i < 2 ^ 32 → p < 2 ^ 64 → GlyphId.WF { Image := i, Palette := p }) := by
  refine ⟨?_, fun g hg => hg.2, fun i p hi hp => ⟨hi, hp⟩⟩
  cases g1
  cases g2
  simp

/-- C5 witness: the amended theorem applied to the key (3, 5). -/
theorem glyphId_key_is_image_palette_pair_witness :
    GlyphId.WF { Image := 3, Palette := 5 } :=
  (glyphId_key_is_image_palette_pair ⟨0, 0⟩ ⟨0, 0⟩).2.2 3 5 (by norm_num) (by norm_num)

/-- C6: the free-slot set is a stack: immediately after a successful
`Free(info)`, the next `Allocate` succeeds and returns `info.slot`. -/
theorem free_then_allocate_reuses_slot (a a' : Atlas) (info : CachedTextureInfo)
    (iw ihh : ℕ) (hfree : a.Free info = some a') :
    ∃ res a'', a'.Allocate iw ihh = some (res, a'') ∧ res.slot = info.slot := by
  obtain ⟨hidx, ha'⟩ := free_some_elim hfree
  subst ha'
  exact ⟨_, _, allocate_of_freeSlots_cons iw ihh rfl, rfl⟩

/-- C6 witness: freeing slot 1 into atlas 2 and allocating again returns
slot 1. -/
theorem free_then_allocate_reuses_slot_witness :
    ∃ res a'',
      (Atlas.mk 2 32 0 0 [1] 0 0).Allocate 10 10 = some (res, a'') ∧ res.slot = 1 :=
  free_then_allocate_reuses_slot (Atlas.new 2 32) (Atlas.mk 2 32 0 0 [1] 0 0)
    ⟨2, 1, ⟨0, 0, 0, 0⟩, ⟨0, 0, 0, 0⟩, ⟨0, 0, 0, 0⟩⟩ 10 10 rfl

/-- C7: after `Initialise(w, h)` the free-slot count is
`(w / imageSize) * (h / imageSize)`; for a 2048x2048 atlas of 32-pixel slots
that is `(2048 / 32) ^ 2 = 4096`. -/
theorem initialise_free_slot_count (a : Atlas) (aw ah : ℕ) :
    (a.Initialise aw ah).GetFreeSlots = aw / a.imageSize * (ah / a.imageSize) ∧
    ((Atlas.new 0 32).Initialise 2048 2048).GetFreeSlots = 4096 := by
  constructor
  · simp [Atlas.Initialise, Atlas.GetFreeSlots]
  · norm_num [Atlas.Initialise, Atlas.GetFreeSlots, Atlas.new]

/-- C8: `Free(info)` asserts that `info.index` matches the atlas index — a
mismatch fails the assertion (modelled as `none`); when the indices match the
assertion cannot fire, the slot id is pushed onto the free set, and the
free-slot count grows by one. -/
theorem free_index_assert_and_count (a : Atlas) (info : CachedTextureInfo) :
    (a.index ≠ info.index → a.Free info = none) ∧
    (a.index = info.index →
      ∃ a', a.Free info = some a' ∧
        a'.freeSlots = info.slot :: a.freeSlots ∧
        a'.GetFreeSlots = a.GetFreeSlots + 1) := by
  constructor
  · intro hne
    simp [Atlas.Free, hne]
  · intro heq
    refine ⟨{ a with freeSlots := info.slot :: a.freeSlots }, ?_, rfl, rfl⟩
    simp [Atlas.Free, heq]

/-- C8 witness: freeing into the wrong atlas (index 1 vs 0) fails the
assertion; freeing a matching record pushes its slot and grows the count. -/
theorem free_index_assert_and_count_witness :
    ((Atlas.new 0 32).Free ⟨1, 0, ⟨0, 0, 0, 0⟩, ⟨0, 0, 0, 0⟩, ⟨0, 0, 0, 0⟩⟩ = none) ∧
    (∃ a', (Atlas.new 0 32).Free ⟨0, 5, ⟨0, 0, 0, 0⟩, ⟨0, 0, 0, 0⟩, ⟨0, 0, 0, 0⟩⟩ = some a' ∧
      a'.freeSlots = 5 :: (Atlas.new 0 32).freeSlots ∧
      a'.GetFreeSlots = (Atlas.new 0 32).GetFreeSlots + 1) :=
  ⟨(free_index_assert_and_count (Atlas.new 0 32)
      ⟨1, 0, ⟨0, 0, 0, 0⟩, ⟨0, 0, 0, 0⟩, ⟨0, 0, 0, 0⟩⟩).1 (by decide),
   (free_index_assert_and_count (Atlas.new 0 32)
      ⟨0, 5, ⟨0, 0, 0, 0⟩, ⟨0, 0, 0, 0⟩, ⟨0, 0, 0, 0⟩⟩).2 rfl⟩

/-- C9: `GlyphId::Equal` is componentwise equality of `Image` and `Palette`;
`Hash` is a pure function of the key (hence deterministic) and maps `Equal`
keys to equal hashes; the same image id with two different palettes gives two
keys that are not `Equal`, hence distinct glyph-map keys. -/
theorem glyphId_equal_componentwise_hash_consistent (g1 g2 : GlyphId) :
    (GlyphId.Equal g1 g2 = true ↔ g1.Image = g2.Image ∧ g1.Palette = g2.Palette) ∧
    (GlyphId.Equal g1 g2 = true → GlyphId.Hash g1 = GlyphId.Hash g2) ∧
    (∀ i p q : ℕ, p ≠ q → GlyphId.Equal ⟨i, p⟩ ⟨i, q⟩ = false) := by
  refine ⟨?_, fun h => ?_, fun i p q hpq => ?_⟩
  · simp [GlyphId.Equal]
  · obtain ⟨h1, h2⟩ : g1.Image = g2.Image ∧ g1.Palette = g2.Palette := by
      simpa [GlyphId.Equal] using h
    simp [GlyphId.Hash, h1, h2]
  · simp [GlyphId.Equal, hpq]

/-- C9 witness: image id 4 with palettes 5 and 9 gives two distinct keys. -/
theorem glyphId_equal_componentwise_hash_consistent_witness :
    GlyphId.Equal ⟨4, 5⟩ ⟨4, 9⟩ = false :=
  (glyphId_equal_componentwise_hash_consistent ⟨4, 5⟩ ⟨4, 9⟩).2.2 4 5 9 (by norm_num)

/-- C10: `Free` checks only the atlas index, not liveness.  Allocating from a
fresh 4-slot atlas and then freeing the returned record twice leaves its slot
id in the free list twice, `GetFreeSlots` counts 5 slots in a 4-slot atlas,
and the next two `Allocate` calls both return that same slot id as
simultaneously live allocations. -/
theorem double_free_duplicates_live_slot :
    ∃ info a1 a2 a3 info4 a4 info5 a5,
      ((Atlas.new 0 32).Initialise 64 64).Allocate 10 10 = some (info, a1) ∧
      a1.Free info = some a2 ∧
      a2.Free info = some a3 ∧
      a3.freeSlots.count info.slot = 2 ∧
      ((Atlas.new 0 32).Initialise 64 64).GetFreeSlots = 4 ∧
      a3.GetFreeSlots = 5 ∧
      a3.Allocate 10 10 = some (info4, a4) ∧
      a4.Allocate 10 10 = some (info5, a5) ∧
      info4.slot = info.slot ∧
      info5.slot = info.slot :=
  ⟨_, _, _, _, _, _, _, _, rfl, rfl, rfl, rfl, rfl, rfl, rfl, rfl, rfl, rfl⟩

end TextureCacheSpec
